import Mathlib

/-!
Shallow embedding of `src/annotation-challenge.py`: the document locator,
the format extractors, the manual regex fallback and the grid renderer,
together with theorems settling the frozen claims about them.
-/

set_option maxHeartbeats 1000000

namespace AnnotationChallenge

/-! ## String primitives mirroring the Python operations used in the source -/

/-- `needle` occurs at the start of `hay` (both as char lists). -/
def listStartsWith : List Char → List Char → Bool
  | [], _ => true
  | _ :: _, [] => false
  | a :: as, b :: bs => a == b && listStartsWith as bs

/-- `needle` occurs somewhere inside `hay`. -/
def hasInfix : List Char → List Char → Bool
  | n, [] => n.isEmpty
  | n, c :: t => listStartsWith n (c :: t) || hasInfix n t

/-- Python's `sub in s` substring test. -/
def strContains (s sub : String) : Bool := hasInfix sub.toList s.toList

/-- Python's `str.lower()` (ASCII case folding, as the source's headers use). -/
def pyLower (s : String) : String := String.mk (s.toList.map Char.toLower)

/-- The characters Python's `str.strip()` and the `\s` class treat as whitespace. -/
def pySpaceChar (c : Char) : Bool :=
  c == ' ' || c == '\t' || c == '\n' || c == '\x0d' || c == '\x0b' || c == '\x0c'

/-- Python's `str.strip()`. -/
def pyStrip (s : String) : String :=
  String.mk (((s.toList.dropWhile pySpaceChar).reverse.dropWhile pySpaceChar).reverse)

/-- `re.search(r'\d+', s)` succeeds exactly when `s` holds at least one digit. -/
def hasDigit (s : String) : Bool := s.toList.any Char.isDigit

/-- Python's `str.isdigit()` (ASCII digits). -/
def pyIsDigit (s : String) : Bool := !s.isEmpty && s.toList.all Char.isDigit

/-! ## Fuzzy header matching (shared by the HTML, DOCX and CSV extractors) -/

/-- The role the header loop can assign to one column name. -/
inductive ColRole
  | xcol
  | charcol
  | ycol
deriving DecidableEq, Repr

/-- The `elif` chain the source runs on each (already lowercased) header cell:
`'x' in cell and ('coord' in cell or 'position' in cell)`, else
`'char' in cell`, else the `y` test. -/
def classifyCol (cell : String) : Option ColRole :=
  if strContains cell "x" && (strContains cell "coord" || strContains cell "position") then
    some ColRole.xcol
  else if strContains cell "char" then
    some ColRole.charcol
  else if strContains cell "y" && (strContains cell "coord" || strContains cell "position") then
    some ColRole.ycol
  else
    none

/-- The source's column-index loop: indices start at `-1` and each matching
column overwrites the index for its role. -/
def findColsAux : List String → Nat → Int × Int × Int → Int × Int × Int
  | [], _, acc => acc
  | cell :: rest, i, (xi, ci, yi) =>
    let acc2 : Int × Int × Int :=
      match classifyCol cell with
      | some ColRole.xcol => ((i : Int), ci, yi)
      | some ColRole.charcol => (xi, (i : Int), yi)
      | some ColRole.ycol => (xi, ci, (i : Int))
      | none => (xi, ci, yi)
    findColsAux rest (i + 1) acc2

/-- `x_idx`, `char_idx`, `y_idx` after the header loop. -/
def findCols (header : List String) : Int × Int × Int := findColsAux header 0 (-1, -1, -1)

/-! ## Row validation and the HTML extractor's table loop -/

/-- One extracted row: the stripped `x`, character and `y` cell texts. -/
abbrev Triple := String × String × String

/-- The source's data-row body: the row is long enough, cells are stripped,
both coordinate cells hold a digit (`re.search(r'\d+', ...)`) and the
character cell is non-empty; then `[x, char, y]` is emitted. -/
def rowTriple (xi ci yi : Nat) (row : List String) : Option Triple :=
  if row.length > max xi (max ci yi) then
    let x := pyStrip (row.getD xi "")
    let c := pyStrip (row.getD ci "")
    let y := pyStrip (row.getD yi "")
    if hasDigit x && hasDigit y && !c.isEmpty then some (x, c, y) else none
  else none

/-- The contribution a single table makes in the HTML loop: nothing when it
has fewer than two rows or the three columns are not all found, otherwise the
valid data rows. -/
def tableTriples (table : List (List String)) : List Triple :=
  if table.length < 2 then []
  else
    let header := (table.headD []).map pyLower
    let cols := findCols header
    if 0 ≤ cols.1 ∧ 0 ≤ cols.2.1 ∧ 0 ≤ cols.2.2 then
      (table.drop 1).filterMap (rowTriple cols.1.toNat cols.2.1.toNat cols.2.2.toNat)
    else []

/-- The `for table in parser.tables` loop of `try_html_format`, with the
running `coordinates` list as the accumulator and the source's early
`if coordinates: return coordinates` after a table whose columns were found. -/
def htmlLoop : List Triple → List (List (List String)) → List Triple
  | coords, [] => coords
  | coords, table :: rest =>
    if table.length < 2 then htmlLoop coords rest
    else
      let header := (table.headD []).map pyLower
      let cols := findCols header
      if 0 ≤ cols.1 ∧ 0 ≤ cols.2.1 ∧ 0 ≤ cols.2.2 then
        let coords2 :=
          coords ++ (table.drop 1).filterMap
            (rowTriple cols.1.toNat cols.2.1.toNat cols.2.2.toNat)
        if coords2.isEmpty then htmlLoop coords2 rest else coords2
      else htmlLoop coords rest

/-- `try_html_format` after the fetch: a non-200 status yields nothing,
otherwise the table loop runs on the parsed tables. -/
def try_html_format (status : Nat) (tables : List (List (List String))) : List Triple :=
  if status = 200 then htmlLoop [] tables else []

/-! ## The DOCX extractor (tables modelled as lists of rows of cell texts) -/

/-- `try_docx_format`'s table loop: same shape as the HTML loop but with no
early return, and header cells go through `.lower().strip()`. -/
def docxLoop : List Triple → List (List (List String)) → List Triple
  | coords, [] => coords
  | coords, table :: rest =>
    if table.length < 2 then docxLoop coords rest
    else
      let header := (table.headD []).map (fun c => pyStrip (pyLower c))
      let cols := findCols header
      if 0 ≤ cols.1 ∧ 0 ≤ cols.2.1 ∧ 0 ≤ cols.2.2 then
        docxLoop
          (coords ++ (table.drop 1).filterMap
            (rowTriple cols.1.toNat cols.2.1.toNat cols.2.2.toNat)) rest
      else docxLoop coords rest

/-- The runtime facts `try_docx_format` depends on: whether `import docx`
succeeds, the HTTP status, and what `docx.Document` does on the downloaded
file — either raising (left) or producing the document's tables (right). -/
structure DocxEnv where
  docxAvailable : Bool
  status : Nat
  parseResult : Except String (List (List (List String)))

/-- What one run of `try_docx_format` leaves behind: the returned coordinates
and whether `temp_doc.docx` still exists on return (`tempExists0` is whether
it existed before the call). -/
structure DocxOutcome where
  coordinates : List Triple
  tempFileExists : Bool
deriving DecidableEq, Repr

/-- `try_docx_format`: the `import docx` guard, the fetch, the write of
`temp_doc.docx`, parsing, the table loop, and the `os.remove` that the source
reaches only when no exception was raised — the `except` handlers return with
the file still on disk. -/
def try_docx_format (env : DocxEnv) (tempExists0 : Bool) : DocxOutcome :=
  if env.docxAvailable = false then
    { coordinates := [], tempFileExists := tempExists0 }
  else if env.status ≠ 200 then
    { coordinates := [], tempFileExists := tempExists0 }
  else
    match env.parseResult with
    | Except.error _ => { coordinates := [], tempFileExists := true }
    | Except.ok tables =>
      { coordinates := docxLoop [] tables, tempFileExists := false }

/-! ## The spreadsheet-CSV extractor -/

/-- `try_direct_csv_export` after the fetch: header row via
`next(csv_reader, [])`, then the shared fuzzy-column and row logic. -/
def try_direct_csv_export (status : Nat) (rows : List (List String)) : List Triple :=
  if status = 200 then
    let header := (rows.headD []).map (fun c => pyStrip (pyLower c))
    let cols := findCols header
    if 0 ≤ cols.1 ∧ 0 ≤ cols.2.1 ∧ 0 ≤ cols.2.2 then
      (rows.drop 1).filterMap (rowTriple cols.1.toNat cols.2.1.toNat cols.2.2.toNat)
    else []
  else []

/-! ## A tiny regex engine covering exactly the source's patterns

Python's `re` backtracking semantics for the constructs the source uses:
single characters from a class, lazy and greedy class stars, an optional
class character, and captured groups that are either a greedy `+` run of a
class or one class character.  Matching is depth-first exactly as Python
tries alternatives: a lazy star first skips, a greedy star or `+` first
consumes. -/

/-- One element of the regex language.  `grpPlusAcc` is the engine's internal
state of a captured `+`-group mid-run (the characters consumed so far);
source patterns use only the other constructors. -/
inductive RItem
  | one (cls : Char → Bool)
  | starL (cls : Char → Bool)
  | starG (cls : Char → Bool)
  | opt (cls : Char → Bool)
  | grpPlus (cls : Char → Bool)
  | grpOne (cls : Char → Bool)
  | grpPlusAcc (cls : Char → Bool) (acc : List Char)

/-- One backtracking step, structural over the pattern: every alternative
that consumes a character goes through `recur` (the matcher on the strictly
shorter remaining text), every alternative that does not is a structural
recursive call.  Alternatives are tried exactly as Python's engine does: a
lazy star first skips, a greedy star, `?` or `+`-run first consumes. -/
def rmatchStep
    (recur : List RItem → List Char → List String → Option (List Char × List String)) :
    List RItem → List Char → List String → Option (List Char × List String)
  | [], s, caps => some (s, caps)
  | RItem.one cls :: rest, s, caps =>
    match s with
    | [] => none
    | c :: t => if cls c then recur rest t caps else none
  | RItem.starL cls :: rest, s, caps =>
    (rmatchStep recur rest s caps).orElse fun _ =>
      match s with
      | [] => none
      | c :: t => if cls c then recur (RItem.starL cls :: rest) t caps else none
  | RItem.starG cls :: rest, s, caps =>
    (match s with
      | [] => none
      | c :: t => if cls c then recur (RItem.starG cls :: rest) t caps else none).orElse
      fun _ => rmatchStep recur rest s caps
  | RItem.opt cls :: rest, s, caps =>
    (match s with
      | [] => none
      | c :: t => if cls c then recur rest t caps else none).orElse
      fun _ => rmatchStep recur rest s caps
  | RItem.grpOne cls :: rest, s, caps =>
    match s with
    | [] => none
    | c :: t => if cls c then recur rest t (caps ++ [String.mk [c]]) else none
  | RItem.grpPlus cls :: rest, s, caps =>
    match s with
    | [] => none
    | c :: t => if cls c then recur (RItem.grpPlusAcc cls [c] :: rest) t caps else none
  | RItem.grpPlusAcc cls acc :: rest, s, caps =>
    (match s with
      | [] => none
      | c :: t =>
        if cls c then recur (RItem.grpPlusAcc cls (acc ++ [c]) :: rest) t caps else none).orElse
      fun _ => rmatchStep recur rest s (caps ++ [String.mk acc])

/-- The matcher with the number of characters that may still be consumed as
fuel.  Consuming steps decrement the fuel together with the text, so with
fuel `s.length` the zero case is reached only on empty text, where every
consuming alternative fails anyway: the fuel is exact, not an approximation. -/
def rmatchFuel : Nat → List RItem → List Char → List String →
    Option (List Char × List String)
  | 0, items, s, caps => rmatchStep (fun _ _ _ => none) items s caps
  | fuel + 1, items, s, caps => rmatchStep (rmatchFuel fuel) items s caps

/-- Backtracking match of a pattern at a fixed position: the text after the
match and the captured groups in order, or `none`. -/
def rmatch (items : List RItem) (s : List Char) (caps : List String) :
    Option (List Char × List String) :=
  rmatchFuel s.length items s caps

/-- `re.search`: try the pattern at each position, left to right. -/
def rsearch (pat : List RItem) : List Char → Option (List Char × List String)
  | [] => rmatch pat [] []
  | c :: t => (rmatch pat (c :: t) []).orElse fun _ => rsearch pat t

/-- `re.findall` driver: after each match the scan resumes at the match's
end.  The fuel bounds the number of matches; every pattern the source uses
consumes at least one character per match, so `s.length + 1` is enough. -/
def rfindallAux (pat : List RItem) : Nat → List Char → List (List String)
  | 0, _ => []
  | fuel + 1, s =>
    match rsearch pat s with
    | none => []
    | some (rest, caps) => caps :: rfindallAux pat fuel rest

/-- `re.findall pat s`: the list of capture tuples of all matches. -/
def rfindall (pat : List RItem) (s : List Char) : List (List String) :=
  rfindallAux pat (s.length + 1) s

/-! ## The source's character classes and patterns -/

/-- `.` (anything but a newline). -/
def anyNoNl (c : Char) : Bool := c != '\n'

/-- `\d`. -/
def digitC (c : Char) : Bool := c.isDigit

/-- `\S`. -/
def nonSpaceC (c : Char) : Bool := !pySpaceChar c

/-- `[=:]`. -/
def eqColonC (c : Char) : Bool := c == '=' || c == ':'

/-- `[\s\D]`. -/
def spaceOrNonDigitC (c : Char) : Bool := pySpaceChar c || !c.isDigit

/-- `[,\s]`. -/
def commaSpaceC (c : Char) : Bool := c == ',' || pySpaceChar c

/-- `(\d+)\s+(\S)[\s\D]*(\d+)` — the plain-text extractor's row pattern. -/
def textRowPat : List RItem :=
  [RItem.grpPlus digitC, RItem.one pySpaceChar, RItem.starG pySpaceChar,
   RItem.grpOne nonSpaceC, RItem.starG spaceOrNonDigitC, RItem.grpPlus digitC]

/-- `.*?(\d+).*?(\d+).*?[=:].*?(\S)` — first manual pattern. -/
def manualPat1 : List RItem :=
  [RItem.starL anyNoNl, RItem.grpPlus digitC, RItem.starL anyNoNl, RItem.grpPlus digitC,
   RItem.starL anyNoNl, RItem.one eqColonC, RItem.starL anyNoNl, RItem.grpOne nonSpaceC]

/-- `\((\d+),\s*(\d+)\)\s*[=:]?\s*(\S)` — second manual pattern. -/
def manualPat2 : List RItem :=
  [RItem.one (fun c => c == '('), RItem.grpPlus digitC, RItem.one (fun c => c == ','),
   RItem.starG pySpaceChar, RItem.grpPlus digitC, RItem.one (fun c => c == ')'),
   RItem.starG pySpaceChar, RItem.opt eqColonC, RItem.starG pySpaceChar,
   RItem.grpOne nonSpaceC]

/-- `(\d+)[,\s]+(\S)[,\s]+(\d+)` — third manual pattern. -/
def manualPat3 : List RItem :=
  [RItem.grpPlus digitC, RItem.one commaSpaceC, RItem.starG commaSpaceC,
   RItem.grpOne nonSpaceC, RItem.one commaSpaceC, RItem.starG commaSpaceC,
   RItem.grpPlus digitC]

/-! ## The plain-text extractor -/

/-- The header-line test of `try_text_format`: the line holds all three
keywords, case-insensitively. -/
def isTextHeaderLine (line : String) : Bool :=
  strContains (pyLower line) "x-coordinate" && strContains (pyLower line) "character" &&
    strContains (pyLower line) "y-coordinate"

/-- One line of `try_text_format`'s data loop: strip, skip a blank line,
else search the row pattern and emit the three groups. -/
def textLineTriple (line : String) : Option Triple :=
  let l := pyStrip line
  if l.isEmpty then none
  else
    match rsearch textRowPat l.toList with
    | some (_, [x, c, y]) => some (x, c, y)
    | _ => none

/-- The line scan of `try_text_format`: find the first header line, then the
data loop runs over every later line. -/
def textScan : List String → List Triple
  | [] => []
  | line :: rest => if isTextHeaderLine line then rest.filterMap textLineTriple else textScan rest

/-- Splitting on one character, as Python's `str.split('\n')` does. -/
def splitOnChar (sep : Char) : List Char → List (List Char)
  | [] => [[]]
  | c :: t =>
    if c = sep then [] :: splitOnChar sep t
    else
      match splitOnChar sep t with
      | [] => [[c]]
      | l :: ls => (c :: l) :: ls

/-- `text_content.split('\n')`. -/
def pySplitLines (s : String) : List String := (splitOnChar '\n' s.toList).map String.mk

/-- `try_text_format` after the fetch. -/
def try_text_format (status : Nat) (content : String) : List Triple :=
  if status = 200 then textScan (pySplitLines content) else []

/-! ## The manual pattern extractor -/

/-- The 3-group orientation heuristic: a single non-digit second group means
the captures already are `(x, char, y)`, otherwise they are `(x, y, char)`
and are re-ordered. -/
def orientMatch (m : List String) : Option Triple :=
  match m with
  | [a, b, c] =>
    if b.length = 1 ∧ pyIsDigit b = false then some (a, b, c) else some (a, c, b)
  | _ => none

/-- `manual_grid_extraction` after the fetch: the three patterns run in
order and every pattern with matches appends its triples to the running list
(the source's loop has no break). -/
def manual_grid_extraction (status : Nat) (content : String) : List Triple :=
  if status = 200 then
    [manualPat1, manualPat2, manualPat3].foldl
      (fun coords pat =>
        let ms := rfindall pat content.toList
        if ms.isEmpty then coords else coords ++ ms.filterMap orientMatch) []
  else []

/-! ## The document locator -/

/-- `[a-zA-Z0-9-_]` — the document-id character class. -/
def idChar (c : Char) : Bool := c.isAlpha || c.isDigit || c == '-' || c == '_'

/-- The literal part of the first locator pattern. -/
def docDMarker : List Char := "/document/d/".toList

/-- The literal head of the second locator pattern. -/
def docUMarker : List Char := "/document/u/".toList

/-- The literal `/d/` segment of the second locator pattern. -/
def dSegMarker : List Char := "/d/".toList

/-- `re.search(r'/document/d/([a-zA-Z0-9-_]+)', url)`: the group of the
leftmost match, scanning position by position. -/
def searchDocD : List Char → Option String
  | [] => none
  | c :: t =>
    if listStartsWith docDMarker (c :: t) then
      let run := ((c :: t).drop docDMarker.length).takeWhile idChar
      if run.isEmpty then searchDocD t else some (String.mk run)
    else searchDocD t

/-- A match of `/document/u/\d+/d/([a-zA-Z0-9-_]+)` anchored at the start of
`s` (the digit run is maximal; `/` is not a digit, so no other split can
succeed). -/
def matchDocUAt (s : List Char) : Option String :=
  if listStartsWith docUMarker s then
    let rest := s.drop docUMarker.length
    let ds := rest.takeWhile Char.isDigit
    if ds.isEmpty then none
    else if listStartsWith dSegMarker (rest.drop ds.length) then
      let run := ((rest.drop ds.length).drop dSegMarker.length).takeWhile idChar
      if run.isEmpty then none else some (String.mk run)
    else none
  else none

/-- `re.search(r'/document/u/\d+/d/([a-zA-Z0-9-_]+)', url)`. -/
def searchDocU : List Char → Option String
  | [] => none
  | c :: t => (matchDocUAt (c :: t)).orElse fun _ => searchDocU t

/-- The query component of `urlparse`: the text after the first `?` in the
part before the fragment (the part after the first `#`). -/
def urlQuery (url : String) : String :=
  match (url.toList.takeWhile (fun c => c != '#')).dropWhile (fun c => c != '?') with
  | [] => ""
  | _ :: t => String.mk t

/-- A hex digit's value. -/
def hexVal (c : Char) : Option Nat :=
  if c.isDigit then some (c.toNat - 48)
  else if 'a' ≤ c ∧ c ≤ 'f' then some (c.toNat - 87)
  else if 'A' ≤ c ∧ c ≤ 'F' then some (c.toNat - 55)
  else none

/-- `parse_qsl`'s value decoding: `+` becomes a space and `%hh` (two hex
digits, ASCII range as the source's URLs use) becomes that character. -/
def pyUnquote : List Char → List Char
  | [] => []
  | '%' :: a :: b :: t =>
    match hexVal a, hexVal b with
    | some x, some y => Char.ofNat (16 * x + y) :: pyUnquote t
    | _, _ => '%' :: pyUnquote (a :: b :: t)
  | c :: t => (if c == '+' then ' ' else c) :: pyUnquote t

/-- `name_value.split('=', 1)`: `none` when there is no `=`. -/
def splitFirstEq (pair : String) : Option (String × String) :=
  match (pair.toList.dropWhile (fun c => c != '=')) with
  | [] => none
  | _ :: v => some (String.mk (pair.toList.takeWhile (fun c => c != '=')), String.mk v)

/-- `parse_qsl` with default settings: split on `&`, skip empty chunks,
pairs without `=` and pairs with an empty value, and decode name and
value. -/
def parseQsl (qs : String) : List (String × String) :=
  ((splitOnChar '&' qs.toList).map String.mk).filterMap fun pair =>
    if pair.isEmpty then none
    else
      match splitFirstEq pair with
      | none => none
      | some (n, v) =>
        if v.isEmpty then none
        else some (String.mk (pyUnquote n.toList), String.mk (pyUnquote v.toList))

/-- `parse_qs(parsed_url.query)['id'][0]` when the parameter is present. -/
def queryIdParam (url : String) : Option String :=
  (((parseQsl (urlQuery url)).filter (fun p => p.1 == "id")).head?).map (fun p => p.2)

/-- `extract_doc_id`: the two path patterns in order, then the `id` query
parameter, else the raised `ValueError` (the spec's `LocatorError`). -/
def extract_doc_id (url : String) : Except String String :=
  match searchDocD url.toList with
  | some g => Except.ok g
  | none =>
    match searchDocU url.toList with
    | some g => Except.ok g
    | none =>
      match queryIdParam url with
      | some v => Except.ok v
      | none => Except.error "Could not extract document ID from URL"

/-! ## Coordinate coercion and the grid renderer -/

/-- `str.replace(r'[^\d]', '', regex=True)`: drop every non-digit. -/
def stripNonDigits (s : String) : String := String.mk (s.toList.filter Char.isDigit)

/-- The numeric value of an all-digit run. -/
def digitsVal (l : List Char) : Nat := l.foldl (fun a c => 10 * a + (c.toNat - 48)) 0

/-- `pd.to_numeric` on one cell: an optional minus sign then at least one
digit parses to the signed value; anything else raises (`none`). -/
def pyToNumeric (s : String) : Option Int :=
  match s.toList with
  | [] => none
  | c :: rest =>
    if c = '-' then
      if rest ≠ [] ∧ rest.all Char.isDigit then some (-(digitsVal rest : Int)) else none
    else if (c :: rest).all Char.isDigit then some ((digitsVal (c :: rest) : Int)) else none

/-- Coercion of one coordinate cell: strip non-digits, then `to_numeric`. -/
def coerceCoord (s : String) : Option Int := pyToNumeric (stripNonDigits s)

/-- The vectorised coercion of both coordinate columns of the DataFrame; a
cell that `to_numeric` cannot parse raises, modelled as `none` for the whole
list. -/
def coerceAll : List Triple → Option (List (Int × String × Int))
  | [] => some []
  | t :: rest =>
    match coerceCoord t.1, coerceCoord t.2.2, coerceAll rest with
    | some x, some y, some l => some ((x, t.2.1, y) :: l)
    | _, _, _ => none

/-- `df['x-coordinate'].max()` over the coerced column (callers guarantee a
non-empty list). -/
def maxXof (l : List (Int × String × Int)) : Int :=
  match l with
  | [] => 0
  | e :: t => t.foldl (fun a f => max a f.1) e.1

/-- `df['y-coordinate'].max()` over the coerced column. -/
def maxYof (l : List (Int × String × Int)) : Int :=
  match l with
  | [] => 0
  | e :: t => t.foldl (fun a f => max a f.2.2) e.2.2

/-- One grid write: `if len(char) > 0: grid[y][x] = char[0]`. -/
def writeCell (g : List (List Char)) (e : Int × String × Int) : List (List Char) :=
  if e.2.1.length > 0 then
    g.set e.2.2.toNat ((g.getD e.2.2.toNat []).set e.1.toNat (e.2.1.toList.headD ' '))
  else g

/-- The renderer: a `(max_y+1) × (max_x+1)` grid of blanks, then each triple
written in order (last write wins). -/
def renderGrid (l : List (Int × String × Int)) : List (List Char) :=
  l.foldl writeCell
    (List.replicate ((maxYof l).toNat + 1) (List.replicate ((maxXof l).toNat + 1) ' '))

/-! ## The pipeline -/

/-- The extraction strategies the source defines. -/
inductive Strategy
  | html
  | text
  | docx
  | csv
  | manual
deriving DecidableEq, Repr

/-- Everything one document's export endpoints would give the extractors:
the HTTP statuses, the parsed HTML tables, the plain-text content, the DOCX
runtime facts and the CSV rows. -/
structure DocSources where
  htmlStatus : Nat
  htmlTables : List (List (List String))
  textStatus : Nat
  textContent : String
  docxEnv : DocxEnv
  csvStatus : Nat
  csvRows : List (List String)

/-- What one run of the body of `print_unicode_grid_from_gdoc` (after the
locator) does: which strategies ran, the lines printed, and the grid if one
was built. -/
structure PipelineRun where
  invoked : List Strategy
  printed : List String
  grid : Option (List (List Char))

/-- The literal message of the no-data branch. -/
def noDataMsg : String := "No valid coordinate data found in the document."

/-- The extraction-and-render body of `print_unicode_grid_from_gdoc`: HTML,
then plain text, then DOCX, each tried only when the previous ones produced
nothing; `try_direct_csv_export` and `manual_grid_extraction` are never
called.  With no coordinates the no-data message is printed and no grid is
built; otherwise the DataFrame is coerced (a failure there is the caught
exception printing an error line, text schematic here) and the grid is
printed row by row. -/
def pipelineRun (src : DocSources) : PipelineRun :=
  let c1 := try_html_format src.htmlStatus src.htmlTables
  let c2 := if c1.isEmpty then try_text_format src.textStatus src.textContent else c1
  let c3 := if c2.isEmpty then (try_docx_format src.docxEnv false).coordinates else c2
  let inv := [Strategy.html] ++ (if c1.isEmpty then [Strategy.text] else []) ++
    (if c2.isEmpty then [Strategy.docx] else [])
  if c3.isEmpty then { invoked := inv, printed := [noDataMsg], grid := none }
  else
    { invoked := inv,
      printed :=
        match coerceAll c3 with
        | none => ["Error: coercion raised"]
        | some l => (renderGrid l).map (fun row => String.mk row),
      grid :=
        match coerceAll c3 with
        | none => none
        | some l => some (renderGrid l) }

/-! ## Helper lemmas -/

lemma toList_mk (l : List Char) : (String.mk l).toList = l := rfl

lemma coerceCoord_nonneg (s : String) (v : Int) (h : coerceCoord s = some v) : 0 ≤ v := by
  unfold coerceCoord pyToNumeric stripNonDigits at h
  rw [toList_mk] at h
  split at h
  · exact absurd h (by simp)
  · next c rest heq =>
    have hcmem : c ∈ s.toList.filter Char.isDigit := by
      rw [heq]; exact List.mem_cons_self c rest
    have hc : c.isDigit := List.of_mem_filter hcmem
    have hne : ¬(c = '-') := by
      intro e
      rw [e] at hc
      exact absurd hc (by decide)
    rw [if_neg hne] at h
    by_cases hall : (c :: rest).all Char.isDigit = true
    · rw [if_pos hall] at h
      have hv : ((digitsVal (c :: rest) : Int)) = v := Option.some.inj h
      rw [← hv]
      exact Int.natCast_nonneg _
    · rw [if_neg hall] at h
      exact absurd h (by simp)

lemma coerceAll_nonneg :
    ∀ coords l, coerceAll coords = some l → ∀ e ∈ l, 0 ≤ e.1 ∧ 0 ≤ e.2.2 := by
  intro coords
  induction coords with
  | nil =>
    intro l h e he
    unfold coerceAll at h
    obtain rfl := Option.some.inj h
    cases he
  | cons t rest ih =>
    intro l h e he
    unfold coerceAll at h
    cases hx : coerceCoord t.1 with
    | none => rw [hx] at h; exact absurd h (by simp)
    | some x =>
      cases hy : coerceCoord t.2.2 with
      | none => rw [hx, hy] at h; exact absurd h (by simp)
      | some y =>
        cases hr : coerceAll rest with
        | none => rw [hx, hy, hr] at h; exact absurd h (by simp)
        | some l2 =>
          rw [hx, hy, hr] at h
          obtain rfl := Option.some.inj h
          rcases List.mem_cons.mp he with rfl | he2
          · exact ⟨coerceCoord_nonneg _ _ hx, coerceCoord_nonneg _ _ hy⟩
          · exact ih l2 hr e he2

/-! ## Claim theorems: C2, C3, C5, C7 -/

/-- C2 counterexample: on a text where the first manual pattern produces a
match, the returned list still holds the triple `("3","B","4")` derived from
the third pattern (and not derivable from the first), so results are merged
across patterns. -/
theorem C2_counterexample :
    (rfindall manualPat1 "x=1,y=2:*\n3,B,4".toList).isEmpty = false ∧
    ("3", "B", "4") ∈ manual_grid_extraction 200 "x=1,y=2:*\n3,B,4" ∧
    ("3", "B", "4") ∈ (rfindall manualPat3 "x=1,y=2:*\n3,B,4".toList).filterMap orientMatch ∧
    ("3", "B", "4") ∉ (rfindall manualPat1 "x=1,y=2:*\n3,B,4".toList).filterMap orientMatch := by
  decide

/-- C2 amended: `manual_grid_extraction` runs all three patterns and
concatenates the (orientation-fixed) triples of every pattern that matches,
in pattern order — the pattern loop has no break, so an earlier match does
not stop later patterns from contributing. -/
theorem C2_manual_concatenates_all_patterns (status : Nat) (content : String) :
    manual_grid_extraction status content =
      if status = 200 then
        (rfindall manualPat1 content.toList).filterMap orientMatch ++
          ((rfindall manualPat2 content.toList).filterMap orientMatch ++
            (rfindall manualPat3 content.toList).filterMap orientMatch)
      else [] := by
  unfold manual_grid_extraction
  by_cases h : status = 200
  · simp only [h, if_pos, List.foldl]
    by_cases h1 : (rfindall manualPat1 content.toList).isEmpty <;>
      by_cases h2 : (rfindall manualPat2 content.toList).isEmpty <;>
        by_cases h3 : (rfindall manualPat3 content.toList).isEmpty <;>
          simp_all [List.isEmpty_iff]
  · simp only [h, if_neg, ite_false]

/-- C3 counterexample: a run where the file is written (docx available,
status 200) and `docx.Document` raises returns with `temp_doc.docx` still on
disk — the cleanup sits inside the `try`, not in a `finally`. -/
theorem C3_counterexample :
    (try_docx_format
      { docxAvailable := true, status := 200,
        parseResult := Except.error "BadZipFile: file is not a zip file" }
      false).tempFileExists = true := by
  rfl

/-- C3 amended: the DOCX extractor deletes its temporary file exactly on the
executions where opening/parsing succeeds; when `docx.Document` raises, the
`except` handler returns with the file still existing, and when the file is
never written (import failure or non-200 status) its existence is
unchanged. -/
theorem C3_temp_cleanup_on_success_only (env : DocxEnv) (t0 : Bool) :
    (env.docxAvailable = true → env.status = 200 →
      (∀ tables, env.parseResult = Except.ok tables →
        (try_docx_format env t0).tempFileExists = false) ∧
      (∀ e, env.parseResult = Except.error e →
        (try_docx_format env t0).tempFileExists = true)) ∧
    (env.docxAvailable = false → (try_docx_format env t0).tempFileExists = t0) ∧
    (env.docxAvailable = true → env.status ≠ 200 →
      (try_docx_format env t0).tempFileExists = t0) := by
  obtain ⟨av, st, pr⟩ := env
  refine ⟨?_, ?_, ?_⟩
  · intro hav hst
    subst hav
    subst hst
    constructor
    · intro tables hpr
      simp only at hpr
      subst hpr
      rfl
    · intro e hpr
      simp only at hpr
      subst hpr
      rfl
  · intro hav
    subst hav
    rfl
  · intro hav hst
    subst hav
    unfold try_docx_format
    rw [if_neg (by simp), if_pos hst]

/-- C5 counterexample: the lowercased name "x char position" contains
"char", yet the classifier assigns it the x role (the `elif` chain tests the
x rule first), so "character column exactly when the name contains 'char'"
fails. -/
theorem C5_counterexample :
    strContains (pyLower "x char position") "char" = true ∧
    classifyCol (pyLower "x char position") = some ColRole.xcol ∧
    classifyCol (pyLower "x char position") ≠ some ColRole.charcol := by
  decide

/-- C5 amended: classification is a first-match `elif` chain — x exactly
when the lowercased name contains "x" with "coord" or "position"; character
exactly when it contains "char" and does not satisfy the x rule; y exactly
when it contains "y" with "coord" or "position" and satisfies neither
earlier rule.  "X Position" matches x, "character" and "Char." match
character, "index" matches none. -/
theorem C5_header_rules (name : String) :
    (classifyCol (pyLower name) = some ColRole.xcol ↔
      (strContains (pyLower name) "x" &&
        (strContains (pyLower name) "coord" || strContains (pyLower name) "position")) = true) ∧
    (classifyCol (pyLower name) = some ColRole.charcol ↔
      (strContains (pyLower name) "char" = true ∧
        (strContains (pyLower name) "x" &&
          (strContains (pyLower name) "coord" || strContains (pyLower name) "position")) = false)) ∧
    (classifyCol (pyLower name) = some ColRole.ycol ↔
      ((strContains (pyLower name) "y" &&
        (strContains (pyLower name) "coord" || strContains (pyLower name) "position")) = true ∧
        (strContains (pyLower name) "x" &&
          (strContains (pyLower name) "coord" || strContains (pyLower name) "position")) = false ∧
        strContains (pyLower name) "char" = false)) ∧
    classifyCol (pyLower "X Position") = some ColRole.xcol ∧
    classifyCol (pyLower "character") = some ColRole.charcol ∧
    classifyCol (pyLower "Char.") = some ColRole.charcol ∧
    classifyCol (pyLower "index") = none := by
  cases hb1 : strContains (pyLower name) "x" &&
      (strContains (pyLower name) "coord" || strContains (pyLower name) "position") <;>
    cases hch : strContains (pyLower name) "char" <;>
      cases hb3 : strContains (pyLower name) "y" &&
          (strContains (pyLower name) "coord" || strContains (pyLower name) "position") <;>
        refine ⟨?_, ?_, ?_, by decide, by decide, by decide, by decide⟩ <;>
          simp [classifyCol, hb1, hch, hb3]

/-! ## Renderer lemmas -/

/-- The glyph at row `r`, column `c` of a grid. -/
def cellAt (g : List (List Char)) (r c : Nat) : Char := (g.getD r []).getD c ' '

lemma foldl_max_init_le {α : Type} (f : α → Int) (l : List α) :
    ∀ a : Int, a ≤ l.foldl (fun b x => max b (f x)) a := by
  induction l with
  | nil => intro a; exact le_refl a
  | cons x t ih => intro a; exact le_trans (le_max_left a (f x)) (ih (max a (f x)))

lemma foldl_max_mem_le {α : Type} (f : α → Int) (l : List α) :
    ∀ (a : Int), ∀ x ∈ l, f x ≤ l.foldl (fun b y => max b (f y)) a := by
  induction l with
  | nil => intro a x hx; cases hx
  | cons z t ih =>
    intro a x hx
    rcases List.mem_cons.mp hx with rfl | hx2
    · exact le_trans (le_max_right a (f x)) (foldl_max_init_le f t _)
    · exact ih _ x hx2

lemma le_maxXof (l : List (Int × String × Int)) (e : Int × String × Int) (he : e ∈ l) :
    e.1 ≤ maxXof l := by
  cases l with
  | nil => cases he
  | cons e0 t =>
    unfold maxXof
    rcases List.mem_cons.mp he with rfl | h2
    · exact foldl_max_init_le _ t e.1
    · exact foldl_max_mem_le _ t e0.1 e h2

lemma le_maxYof (l : List (Int × String × Int)) (e : Int × String × Int) (he : e ∈ l) :
    e.2.2 ≤ maxYof l := by
  cases l with
  | nil => cases he
  | cons e0 t =>
    unfold maxYof
    rcases List.mem_cons.mp he with rfl | h2
    · exact foldl_max_init_le _ t e.2.2
    · exact foldl_max_mem_le _ t e0.2.2 e h2

lemma writeCell_length (g : List (List Char)) (e : Int × String × Int) :
    (writeCell g e).length = g.length := by
  unfold writeCell
  split
  · exact List.length_set ..
  · rfl

lemma foldl_writeCell_length (l : List (Int × String × Int)) :
    ∀ g : List (List Char), (l.foldl writeCell g).length = g.length := by
  induction l with
  | nil => intro g; rfl
  | cons e t ih =>
    intro g
    rw [List.foldl_cons, ih (writeCell g e), writeCell_length]

lemma writeCell_row_length (g : List (List Char)) (e : Int × String × Int) (w : Nat)
    (hg : ∀ row ∈ g, row.length = w) : ∀ row ∈ writeCell g e, row.length = w := by
  intro row hrow
  unfold writeCell at hrow
  split at hrow
  · by_cases hy : e.2.2.toNat < g.length
    · rcases List.mem_or_eq_of_mem_set hrow with h | h
      · exact hg _ h
      · subst h
        rw [List.length_set]
        exact hg _ (by
          rw [List.getD_eq_getElem _ _ hy]
          exact List.getElem_mem hy)
    · rw [List.set_eq_of_length_le (Nat.le_of_not_lt hy)] at hrow
      exact hg _ hrow
  · exact hg _ hrow

lemma foldl_writeCell_row_length (l : List (Int × String × Int)) (w : Nat) :
    ∀ g : List (List Char), (∀ row ∈ g, row.length = w) →
      ∀ row ∈ l.foldl writeCell g, row.length = w := by
  induction l with
  | nil => intro g hg; exact hg
  | cons e t ih =>
    intro g hg
    rw [List.foldl_cons]
    exact ih (writeCell g e) (writeCell_row_length g e w hg)

lemma getD_set_ne {α : Type} (g : List α) (i j : Nat) (a d : α) (h : i ≠ j) :
    (g.set i a).getD j d = g.getD j d := by
  rw [List.getD_eq_getElem?_getD, List.getElem?_set_ne h, ← List.getD_eq_getElem?_getD]

lemma getD_set_self_of_lt {α : Type} (g : List α) (i : Nat) (a d : α) (h : i < g.length) :
    (g.set i a).getD i d = a := by
  rw [List.getD_eq_getElem?_getD, List.getElem?_set_self h, Option.getD_some]

lemma getD_replicate {α : Type} (n : Nat) (a : α) (m : Nat) (d : α) :
    (List.replicate n a).getD m d = if m < n then a else d := by
  rw [List.getD_eq_getElem?_getD, List.getElem?_replicate]
  by_cases h : m < n
  · rw [if_pos h, if_pos h, Option.getD_some]
  · rw [if_neg h, if_neg h, Option.getD_none]

lemma writeCell_cell_untouched (g : List (List Char)) (e : Int × String × Int) (r c : Nat)
    (hun : ¬(e.1.toNat = c ∧ e.2.2.toNat = r ∧ e.2.1 ≠ ""))
    (hcell : cellAt g r c = ' ') : cellAt (writeCell g e) r c = ' ' := by
  unfold writeCell
  split
  · next hlen =>
    have hchar : e.2.1 ≠ "" := by
      intro hemp
      rw [hemp] at hlen
      exact absurd hlen (by decide)
    by_cases hyr : e.2.2.toNat = r
    · by_cases hxc : e.1.toNat = c
      · exact absurd ⟨hxc, hyr, hchar⟩ hun
      · subst hyr
        by_cases hy : e.2.2.toNat < g.length
        · unfold cellAt at hcell ⊢
          rw [getD_set_self_of_lt _ _ _ _ hy, getD_set_ne _ _ _ _ _ hxc]
          exact hcell
        · rw [List.set_eq_of_length_le (Nat.le_of_not_lt hy)]
          exact hcell
    · unfold cellAt at hcell ⊢
      rw [getD_set_ne _ _ _ _ _ hyr]
      exact hcell
  · exact hcell

lemma foldl_writeCell_cell_untouched (l : List (Int × String × Int)) (r c : Nat) :
    ∀ g : List (List Char),
      (∀ e ∈ l, ¬(e.1.toNat = c ∧ e.2.2.toNat = r ∧ e.2.1 ≠ "")) →
      cellAt g r c = ' ' → cellAt (l.foldl writeCell g) r c = ' ' := by
  induction l with
  | nil => intro g _ hcell; exact hcell
  | cons e t ih =>
    intro g hun hcell
    rw [List.foldl_cons]
    exact ih (writeCell g e)
      (fun e2 he2 => hun e2 (List.mem_cons_of_mem e he2))
      (writeCell_cell_untouched g e r c (hun e (List.mem_cons_self e t)) hcell)

lemma cellAt_blank_grid (H W r c : Nat) :
    cellAt (List.replicate H (List.replicate W ' ')) r c = ' ' := by
  unfold cellAt
  rw [getD_replicate]
  split
  · rw [getD_replicate]
    split <;> rfl
  · rfl

/-! ## Claim theorems: C6, C8 -/

/-- C6: every write the renderer performs is in bounds — for a successfully
coerced triple list, every triple's row index is below the number of grid
rows and its column index below that row's length, because the grid is sized
by the maxima over the same list. -/
theorem C6_renderer_writes_in_bounds (coords : List Triple) (l : List (Int × String × Int))
    (h : coerceAll coords = some l) :
    ∀ e ∈ l, e.2.2.toNat < (renderGrid l).length ∧
      e.1.toNat < ((renderGrid l).getD e.2.2.toNat []).length := by
  intro e he
  have hnn := coerceAll_nonneg coords l h e he
  have hx : e.1.toNat ≤ (maxXof l).toNat := Int.toNat_le_toNat (le_maxXof l e he)
  have hy : e.2.2.toNat ≤ (maxYof l).toNat := Int.toNat_le_toNat (le_maxYof l e he)
  have hlen : (renderGrid l).length = (maxYof l).toNat + 1 := by
    unfold renderGrid
    rw [foldl_writeCell_length, List.length_replicate]
  have hylt : e.2.2.toNat < (renderGrid l).length := by
    rw [hlen]; exact Nat.lt_succ_of_le hy
  refine ⟨hylt, ?_⟩
  have hrow : ((renderGrid l).getD e.2.2.toNat []).length = (maxXof l).toNat + 1 := by
    have hmem : (renderGrid l).getD e.2.2.toNat [] ∈ renderGrid l := by
      rw [List.getD_eq_getElem _ _ hylt]
      exact List.getElem_mem hylt
    refine foldl_writeCell_row_length l ((maxXof l).toNat + 1) _ ?_ _ hmem
    intro row hrowmem
    rw [List.eq_of_mem_replicate hrowmem, List.length_replicate]
  rw [hrow]
  exact Nat.lt_succ_of_le hx

/-- C6 witness at the coerced list of `[("3","A","1")]`. -/
theorem C6_witness :
    ((3 : Int), ("A" : String), (1 : Int)).2.2.toNat <
        (renderGrid [((3 : Int), ("A" : String), (1 : Int))]).length ∧
      ((3 : Int), ("A" : String), (1 : Int)).1.toNat <
        ((renderGrid [((3 : Int), ("A" : String), (1 : Int))]).getD
          ((3 : Int), ("A" : String), (1 : Int)).2.2.toNat []).length := by
  have := C6_renderer_writes_in_bounds [("3", "A", "1")]
    [((3 : Int), ("A" : String), (1 : Int))] (by decide)
    ((3 : Int), ("A" : String), (1 : Int)) (by simp)
  exact ⟨this.1, this.2⟩

/-- C8: for a non-empty triple list with non-negative coordinates, the
rendered grid has exactly `max_y+1` rows, each of length exactly `max_x+1`,
and every cell no triple writes holds the blank glyph. -/
theorem C8_grid_shape (l : List (Int × String × Int)) (_hne : l ≠ [])
    (_hnn : ∀ e ∈ l, 0 ≤ e.1 ∧ 0 ≤ e.2.2) :
    (renderGrid l).length = (maxYof l).toNat + 1 ∧
    (∀ row ∈ renderGrid l, row.length = (maxXof l).toNat + 1) ∧
    (∀ r c : Nat, (∀ e ∈ l, ¬(e.1.toNat = c ∧ e.2.2.toNat = r ∧ e.2.1 ≠ "")) →
      cellAt (renderGrid l) r c = ' ') := by
  refine ⟨?_, ?_, ?_⟩
  · unfold renderGrid
    rw [foldl_writeCell_length, List.length_replicate]
  · intro row hrow
    refine foldl_writeCell_row_length l ((maxXof l).toNat + 1) _ ?_ row hrow
    intro row2 hrow2
    rw [List.eq_of_mem_replicate hrow2, List.length_replicate]
  · intro r c hun
    exact foldl_writeCell_cell_untouched l r c _ hun
      (cellAt_blank_grid ((maxYof l).toNat + 1) ((maxXof l).toNat + 1) r c)

/-- C8 witness at the spec's end-to-end triple list. -/
theorem C8_witness :
    (renderGrid [((0 : Int), ("A" : String), (0 : Int)), (1, "B", 0), (0, "C", 1)]).length =
        (maxYof [((0 : Int), ("A" : String), (0 : Int)), (1, "B", 0), (0, "C", 1)]).toNat + 1 ∧
      (∀ row ∈ renderGrid [((0 : Int), ("A" : String), (0 : Int)), (1, "B", 0), (0, "C", 1)],
        row.length =
          (maxXof [((0 : Int), ("A" : String), (0 : Int)), (1, "B", 0), (0, "C", 1)]).toNat + 1) ∧
      (∀ r c : Nat,
        (∀ e ∈ [((0 : Int), ("A" : String), (0 : Int)), (1, "B", 0), (0, "C", 1)],
          ¬(e.1.toNat = c ∧ e.2.2.toNat = r ∧ e.2.1 ≠ "")) →
        cellAt (renderGrid [((0 : Int), ("A" : String), (0 : Int)), (1, "B", 0), (0, "C", 1)])
          r c = ' ') :=
  C8_grid_shape [((0 : Int), ("A" : String), (0 : Int)), (1, "B", 0), (0, "C", 1)]
    (by decide) (by decide)

/-- C7: after the renderer's coercion (strip non-digits, then parse) every
coordinate handed to the grid builder is non-negative, and the cell "-5"
coerces to 5. -/
theorem C7_coerced_coordinates_nonneg :
    (∀ coords l, coerceAll coords = some l → ∀ e ∈ l, 0 ≤ e.1 ∧ 0 ≤ e.2.2) ∧
    coerceCoord "-5" = some 5 :=
  ⟨coerceAll_nonneg, by decide⟩

/-! ## Pipeline theorems: C1, C9 -/

/-- A source bundle where the three tried strategies all yield nothing while
the CSV and manual extractors would yield data. -/
def srcAllEmpty : DocSources :=
  { htmlStatus := 404, htmlTables := [],
    textStatus := 200, textContent := "1, *, 2",
    docxEnv := { docxAvailable := false, status := 404, parseResult := Except.error "no docx" },
    csvStatus := 200, csvRows := [["x coord", "char", "y coord"], ["1", "A", "2"]] }

/-- C1 counterexample: on a document where the HTML, plain-text and DOCX
extractors all return empty lists, the pipeline reports no data without
invoking the spreadsheet-CSV or manual extractors, although both would have
produced triples. -/
theorem C1_counterexample :
    try_html_format srcAllEmpty.htmlStatus srcAllEmpty.htmlTables = [] ∧
    try_text_format srcAllEmpty.textStatus srcAllEmpty.textContent = [] ∧
    (try_docx_format srcAllEmpty.docxEnv false).coordinates = [] ∧
    (pipelineRun srcAllEmpty).printed = [noDataMsg] ∧
    Strategy.csv ∉ (pipelineRun srcAllEmpty).invoked ∧
    Strategy.manual ∉ (pipelineRun srcAllEmpty).invoked ∧
    try_direct_csv_export srcAllEmpty.csvStatus srcAllEmpty.csvRows ≠ [] ∧
    manual_grid_extraction srcAllEmpty.textStatus srcAllEmpty.textContent ≠ [] := by
  decide

/-- C1 amended: the pipeline tries the HTML, plain-text and DOCX extractors
in that fixed order, stopping at the first non-empty result; when all three
return empty lists it reports that no data was found — the spreadsheet-CSV
and manual pattern extractors are defined but never invoked. -/
theorem C1_fixed_order_without_csv_manual (src : DocSources) :
    (Strategy.csv ∉ (pipelineRun src).invoked ∧
      Strategy.manual ∉ (pipelineRun src).invoked) ∧
    (try_html_format src.htmlStatus src.htmlTables ≠ [] →
      (pipelineRun src).invoked = [Strategy.html]) ∧
    (try_html_format src.htmlStatus src.htmlTables = [] →
      try_text_format src.textStatus src.textContent ≠ [] →
      (pipelineRun src).invoked = [Strategy.html, Strategy.text]) ∧
    (try_html_format src.htmlStatus src.htmlTables = [] →
      try_text_format src.textStatus src.textContent = [] →
      (pipelineRun src).invoked = [Strategy.html, Strategy.text, Strategy.docx] ∧
      ((try_docx_format src.docxEnv false).coordinates = [] →
        (pipelineRun src).printed = [noDataMsg])) := by
  by_cases h1 : try_html_format src.htmlStatus src.htmlTables = [] <;>
    by_cases h2 : try_text_format src.textStatus src.textContent = [] <;>
      by_cases h3 : (try_docx_format src.docxEnv false).coordinates = [] <;>
        refine ⟨⟨?_, ?_⟩, ?_, ?_, ?_⟩ <;>
          simp [pipelineRun, h1, h2, h3]

/-- C9: when the three attempted strategies all return empty lists, the
pipeline prints exactly the no-data message, builds no grid, and (being a
total function of its sources) returns normally. -/
theorem C9_no_data_message (src : DocSources)
    (h1 : try_html_format src.htmlStatus src.htmlTables = [])
    (h2 : try_text_format src.textStatus src.textContent = [])
    (h3 : (try_docx_format src.docxEnv false).coordinates = []) :
    (pipelineRun src).printed = [noDataMsg] ∧ (pipelineRun src).grid = none ∧
    (pipelineRun src).invoked = [Strategy.html, Strategy.text, Strategy.docx] := by
  unfold pipelineRun
  simp [h1, h2, h3]

/-- C9 witness at a concrete all-empty source bundle. -/
theorem C9_witness :
    (pipelineRun srcAllEmpty).printed = [noDataMsg] ∧
    (pipelineRun srcAllEmpty).grid = none ∧
    (pipelineRun srcAllEmpty).invoked = [Strategy.html, Strategy.text, Strategy.docx] :=
  C9_no_data_message srcAllEmpty (by decide) (by decide) (by decide)

/-! ## HTML table-priority theorems: C10 -/

lemma htmlLoop_skip_empty (pre : List (List (List String))) :
    ∀ rest0, (∀ u ∈ pre, tableTriples u = []) →
      htmlLoop [] (pre ++ rest0) = htmlLoop [] rest0 := by
  induction pre with
  | nil => intro rest0 _; rfl
  | cons u t ih =>
    intro rest0 hpre
    have hu := hpre u (List.mem_cons_self u t)
    have hrest : ∀ v ∈ t, tableTriples v = [] :=
      fun v hv => hpre v (List.mem_cons_of_mem u hv)
    rw [List.cons_append]
    by_cases hlen : u.length < 2
    · simp only [htmlLoop]
      rw [if_pos hlen]
      exact ih rest0 hrest
    · by_cases hcols : 0 ≤ (findCols ((u.headD []).map pyLower)).1 ∧
          0 ≤ (findCols ((u.headD []).map pyLower)).2.1 ∧
          0 ≤ (findCols ((u.headD []).map pyLower)).2.2
      · have hfm : (u.drop 1).filterMap
            (rowTriple (findCols ((u.headD []).map pyLower)).1.toNat
              (findCols ((u.headD []).map pyLower)).2.1.toNat
              (findCols ((u.headD []).map pyLower)).2.2.toNat) = [] := by
          unfold tableTriples at hu
          rw [if_neg hlen] at hu
          simp only [] at hu
          rw [if_pos hcols] at hu
          exact hu
        simp only [htmlLoop]
        rw [if_neg hlen]
        rw [if_pos hcols, hfm]
        simp only [List.append_nil, List.isEmpty_nil, if_pos]
        exact ih rest0 hrest
      · simp only [htmlLoop]
        rw [if_neg hlen]
        rw [if_neg hcols]
        exact ih rest0 hrest

lemma htmlLoop_first_yield (t : List (List String)) (post : List (List (List String)))
    (ht : tableTriples t ≠ []) : htmlLoop [] (t :: post) = tableTriples t := by
  by_cases hlen : t.length < 2
  · exfalso
    apply ht
    unfold tableTriples
    rw [if_pos hlen]
  · by_cases hcols : 0 ≤ (findCols ((t.headD []).map pyLower)).1 ∧
        0 ≤ (findCols ((t.headD []).map pyLower)).2.1 ∧
        0 ≤ (findCols ((t.headD []).map pyLower)).2.2
    · have htt : tableTriples t = (t.drop 1).filterMap
          (rowTriple (findCols ((t.headD []).map pyLower)).1.toNat
            (findCols ((t.headD []).map pyLower)).2.1.toNat
            (findCols ((t.headD []).map pyLower)).2.2.toNat) := by
        unfold tableTriples
        rw [if_neg hlen]
        rw [if_pos hcols]
      simp only [htmlLoop]
      rw [if_neg hlen]
      rw [if_pos hcols, List.nil_append, ← htt]
      rw [List.isEmpty_eq_false.mpr ht]
      simp only [Bool.false_eq_true, if_false]
    · exfalso
      apply ht
      unfold tableTriples
      rw [if_neg hlen]
      rw [if_neg hcols]

/-- C10: when earlier tables contribute nothing (too short, columns not
found, or no valid data row) and table `t` yields at least one valid triple,
the HTML extractor returns exactly `t`'s triples — tables after `t` never
contribute. -/
theorem C10_first_contributing_table (pre : List (List (List String)))
    (t : List (List String)) (post : List (List (List String)))
    (hpre : ∀ u ∈ pre, tableTriples u = []) (ht : tableTriples t ≠ []) :
    try_html_format 200 (pre ++ t :: post) = tableTriples t := by
  unfold try_html_format
  rw [if_pos rfl, htmlLoop_skip_empty pre (t :: post) hpre]
  exact htmlLoop_first_yield t post ht

/-- C10 witness: a header-only-match table before, a yielding table, and a
yielding table after. -/
theorem C10_witness :
    try_html_format 200
        ([[["x position", "char", "y position"], ["a", "b", "c"]]] ++
          [["x coord", "char", "y coord"], ["1", "A", "2"]] ::
            [[["x coord", "char", "y coord"], ["9", "Z", "9"]]]) =
      tableTriples [["x coord", "char", "y coord"], ["1", "A", "2"]] :=
  C10_first_contributing_table
    [[["x position", "char", "y position"], ["a", "b", "c"]]]
    [["x coord", "char", "y coord"], ["1", "A", "2"]]
    [[["x coord", "char", "y coord"], ["9", "Z", "9"]]]
    (by decide) (by decide)

/-! ## Locator theorems: C4

Declarative versions of the two path patterns (a match exists at some
position), proved equivalent to the position-by-position scanners, so the
error characterization is not a restatement of the code. -/

/-- The first pattern `/document/d/([a-zA-Z0-9-_]+)` matches at the start of
`tail`. -/
def matchDAt (tail : List Char) : Prop :=
  ∃ c post, tail = docDMarker ++ c :: post ∧ idChar c = true

/-- The second pattern `/document/u/\d+/d/([a-zA-Z0-9-_]+)` matches at the
start of `tail`. -/
def matchUAt (tail : List Char) : Prop :=
  ∃ ds c post, tail = docUMarker ++ (ds ++ (dSegMarker ++ c :: post)) ∧
    ds ≠ [] ∧ (∀ d ∈ ds, d.isDigit = true) ∧ idChar c = true

/-- The first pattern matches somewhere in the URL. -/
def docDPattern (url : String) : Prop :=
  ∃ pre tail, url.toList = pre ++ tail ∧ matchDAt tail

/-- The second pattern matches somewhere in the URL. -/
def docUPattern (url : String) : Prop :=
  ∃ pre tail, url.toList = pre ++ tail ∧ matchUAt tail

lemma startsWith_iff (n l : List Char) : listStartsWith n l = true ↔ ∃ s, l = n ++ s := by
  induction n generalizing l with
  | nil => simp [listStartsWith]
  | cons a as ih =>
    cases l with
    | nil => simp [listStartsWith]
    | cons b bs =>
      simp only [listStartsWith, Bool.and_eq_true, beq_iff_eq]
      constructor
      · rintro ⟨rfl, h⟩
        obtain ⟨s, rfl⟩ := (ih bs).mp h
        exact ⟨s, rfl⟩
      · rintro ⟨s, hs⟩
        injection hs with h1 h2
        exact ⟨h1.symm, (ih bs).mpr ⟨s, h2⟩⟩

lemma exists_split_nil (Q : List Char → Prop) :
    (∃ pre tail, ([] : List Char) = pre ++ tail ∧ Q tail) ↔ Q [] := by
  constructor
  · rintro ⟨pre, tail, heq, hq⟩
    obtain ⟨rfl, rfl⟩ := List.append_eq_nil.mp heq.symm
    exact hq
  · intro hq
    exact ⟨[], [], rfl, hq⟩

lemma exists_split_cons (Q : List Char → Prop) (a : Char) (t : List Char) :
    (∃ pre tail, a :: t = pre ++ tail ∧ Q tail) ↔
      Q (a :: t) ∨ ∃ pre tail, t = pre ++ tail ∧ Q tail := by
  constructor
  · rintro ⟨pre, tail, heq, hq⟩
    cases pre with
    | nil =>
      rw [List.nil_append] at heq
      rw [heq]
      exact Or.inl hq
    | cons b pre2 =>
      rw [List.cons_append] at heq
      injection heq with h1 h2
      exact Or.inr ⟨pre2, tail, h2, hq⟩
  · rintro (hq | ⟨pre, tail, heq, hq⟩)
    · exact ⟨[], a :: t, rfl, hq⟩
    · exact ⟨a :: pre, tail, by rw [List.cons_append, heq], hq⟩

lemma matchDAt_nil : ¬ matchDAt [] := by
  rintro ⟨c, post, heq, _⟩
  obtain ⟨h1, h2⟩ := List.append_eq_nil.mp heq.symm
  exact absurd h2 (by simp)

lemma matchUAt_nil : ¬ matchUAt [] := by
  rintro ⟨ds, c, post, heq, _, _, _⟩
  obtain ⟨h1, h2⟩ := List.append_eq_nil.mp heq.symm
  exact absurd h1 (by decide)

lemma searchDocD_isSome_iff : ∀ l : List Char,
    (searchDocD l).isSome = true ↔ ∃ pre tail, l = pre ++ tail ∧ matchDAt tail := by
  intro l
  induction l with
  | nil =>
    rw [exists_split_nil]
    simp [searchDocD, matchDAt_nil]
  | cons a t ih =>
    rw [exists_split_cons]
    by_cases hsw : listStartsWith docDMarker (a :: t) = true
    · obtain ⟨suffix, hsuf⟩ := (startsWith_iff _ _).mp hsw
      have hdrop : (a :: t).drop docDMarker.length = suffix := by
        rw [hsuf]
        exact List.drop_left _ _
      by_cases hrun : (suffix.takeWhile idChar).isEmpty = true
      · have hnomatch : ¬ matchDAt (a :: t) := by
          rintro ⟨c, post, heq, hc⟩
          rw [hsuf] at heq
          have hsfx : suffix = c :: post := List.append_cancel_left heq
          rw [hsfx, List.takeWhile_cons, if_pos hc] at hrun
          simp at hrun
        simp only [searchDocD]
        rw [if_pos hsw, hdrop, if_pos hrun, ih]
        simp [hnomatch]
      · have hmatch : matchDAt (a :: t) := by
          cases hsfx : suffix.takeWhile idChar with
          | nil => rw [hsfx] at hrun; simp at hrun
          | cons c rest2 =>
            cases suffix with
            | nil => rw [List.takeWhile_nil] at hsfx; cases hsfx
            | cons c2 srest =>
              rw [List.takeWhile_cons] at hsfx
              by_cases hc2 : idChar c2 = true
              · exact ⟨c2, srest, by rw [hsuf], hc2⟩
              · rw [if_neg hc2] at hsfx; cases hsfx
        simp only [searchDocD]
        rw [if_pos hsw, hdrop, if_neg hrun]
        simp [hmatch]
    · have hnomatch : ¬ matchDAt (a :: t) := by
        rintro ⟨c, post, heq, _⟩
        exact hsw ((startsWith_iff _ _).mpr ⟨c :: post, heq⟩)
      simp only [searchDocD]
      rw [if_neg hsw, ih]
      simp [hnomatch]

lemma takeWhile_append_not (p : Char → Bool) (a : List Char) (b : Char) (r : List Char)
    (ha : ∀ x ∈ a, p x = true) (hb : p b = false) :
    (a ++ b :: r).takeWhile p = a := by
  induction a with
  | nil =>
    rw [List.nil_append, List.takeWhile_cons, hb]
    simp
  | cons x xs ih =>
    rw [List.cons_append, List.takeWhile_cons, if_pos (ha x (List.mem_cons_self x xs)),
      ih (fun y hy => ha y (List.mem_cons_of_mem x hy))]

lemma matchDocUAt_isSome_iff (s : List Char) : (matchDocUAt s).isSome = true ↔ matchUAt s := by
  constructor
  · intro h
    simp only [matchDocUAt] at h
    by_cases hsw : listStartsWith docUMarker s = true
    case neg => rw [if_neg hsw] at h; simp at h
    rw [if_pos hsw] at h
    obtain ⟨suffix, hsuf⟩ := (startsWith_iff _ _).mp hsw
    have hdrop : s.drop docUMarker.length = suffix := by
      rw [hsuf]
      exact List.drop_left _ _
    rw [hdrop] at h
    by_cases hds : (suffix.takeWhile Char.isDigit).isEmpty = true
    · rw [if_pos hds] at h; simp at h
    rw [if_neg hds] at h
    by_cases hsw2 : listStartsWith dSegMarker
        (suffix.drop (suffix.takeWhile Char.isDigit).length) = true
    case neg => rw [if_neg hsw2] at h; simp at h
    rw [if_pos hsw2] at h
    obtain ⟨rest2, hrest2⟩ := (startsWith_iff _ _).mp hsw2
    have hdrop2 : (suffix.drop (suffix.takeWhile Char.isDigit).length).drop
        dSegMarker.length = rest2 := by
      rw [hrest2]
      exact List.drop_left _ _
    rw [hdrop2] at h
    by_cases hrun : (rest2.takeWhile idChar).isEmpty = true
    · rw [if_pos hrun] at h; simp at h
    obtain ⟨rest1, hrest1⟩ := ( List.takeWhile_prefix Char.isDigit :
      suffix.takeWhile Char.isDigit <+: suffix)
    have hr1 := List.drop_left (suffix.takeWhile Char.isDigit) rest1
    rw [hrest1] at hr1
    have hseg : rest1 = dSegMarker ++ rest2 := by rw [← hr1, hrest2]
    cases hsfx : rest2.takeWhile idChar with
    | nil => rw [hsfx] at hrun; simp at hrun
    | cons c rest3 =>
      cases rest2 with
      | nil => rw [List.takeWhile_nil] at hsfx; cases hsfx
      | cons c2 post2 =>
        rw [List.takeWhile_cons] at hsfx
        by_cases hc2 : idChar c2 = true
        · refine ⟨suffix.takeWhile Char.isDigit, c2, post2, ?_, ?_, ?_, hc2⟩
          · rw [hsuf]
            congr 1
            rw [← hseg]
            exact hrest1.symm
          · intro hnil
            rw [hnil] at hds
            simp at hds
          · intro d hd
            exact List.mem_takeWhile_imp hd
        · rw [if_neg hc2] at hsfx; cases hsfx
  · rintro ⟨ds, c, post, heq, hds, hdig, hc⟩
    simp only [matchDocUAt]
    have hsw : listStartsWith docUMarker s = true :=
      (startsWith_iff _ _).mpr ⟨ds ++ (dSegMarker ++ c :: post), heq⟩
    rw [if_pos hsw]
    have hdrop : s.drop docUMarker.length = ds ++ (dSegMarker ++ c :: post) := by
      rw [heq]
      exact List.drop_left _ _
    rw [hdrop]
    have htw : (ds ++ (dSegMarker ++ c :: post)).takeWhile Char.isDigit = ds := by
      have hshape : dSegMarker ++ c :: post = '/' :: (['d', '/'] ++ c :: post) := rfl
      rw [hshape]
      exact takeWhile_append_not _ ds '/' _ hdig (by decide)
    rw [htw]
    have hdsne : ds.isEmpty = false := List.isEmpty_eq_false.mpr hds
    rw [if_neg (by simp [hdsne])]
    have hdrop2 : (ds ++ (dSegMarker ++ c :: post)).drop ds.length =
        dSegMarker ++ c :: post := List.drop_left _ _
    rw [hdrop2]
    have hsw2 : listStartsWith dSegMarker (dSegMarker ++ c :: post) = true :=
      (startsWith_iff _ _).mpr ⟨c :: post, rfl⟩
    rw [if_pos hsw2]
    have hdrop3 : (dSegMarker ++ c :: post).drop dSegMarker.length = c :: post :=
      List.drop_left _ _
    rw [hdrop3, List.takeWhile_cons, if_pos hc]
    simp

lemma searchDocU_isSome_iff : ∀ l : List Char,
    (searchDocU l).isSome = true ↔ ∃ pre tail, l = pre ++ tail ∧ matchUAt tail := by
  intro l
  induction l with
  | nil =>
    rw [exists_split_nil]
    simp [searchDocU, matchUAt_nil]
  | cons a t ih =>
    rw [exists_split_cons]
    simp only [searchDocU]
    cases hm : matchDocUAt (a :: t) with
    | some g =>
      have hyes : matchUAt (a :: t) := (matchDocUAt_isSome_iff _).mp (by rw [hm]; rfl)
      simp [Option.orElse, hyes]
    | none =>
      have hno : ¬ matchUAt (a :: t) := by
        intro hx
        have := (matchDocUAt_isSome_iff (a :: t)).mpr hx
        rw [hm] at this
        cases this
      simp [Option.orElse, ih, hno]

lemma queryIdParam_none_iff (url : String) :
    queryIdParam url = none ↔ ∀ p ∈ parseQsl (urlQuery url), p.1 ≠ "id" := by
  unfold queryIdParam
  rw [Option.map_eq_none', List.head?_eq_none_iff, List.filter_eq_nil_iff]
  simp

lemma extract_error_iff (url : String) :
    (∃ e, extract_doc_id url = Except.error e) ↔
      searchDocD url.toList = none ∧ searchDocU url.toList = none ∧
        queryIdParam url = none := by
  unfold extract_doc_id
  cases h1 : searchDocD url.toList with
  | some g => simp [h1]
  | none =>
    cases h2 : searchDocU url.toList with
    | some g => simp [h2]
    | none =>
      cases h3 : queryIdParam url with
      | some v => simp [h3]
      | none => simp [h3]

/-- C4: the locator returns the id captured by the `/document/d/` pattern,
else by the `/document/u/{n}/d/` pattern, else the `id` query parameter, and
raises (the spec's `LocatorError`) exactly when none of the three matches;
the spec's two scenario URLs give "ABC123" and "XYZ".  The embedding is a
pure function, so it has no side effects. -/
theorem C4_locator :
    extract_doc_id "https://docs.google.com/document/d/ABC123/edit" = Except.ok "ABC123" ∧
    extract_doc_id "https://docs.google.com/document/u/0/d/XYZ/edit" = Except.ok "XYZ" ∧
    (∀ url g, searchDocD url.toList = some g → extract_doc_id url = Except.ok g) ∧
    (∀ url g, searchDocD url.toList = none → searchDocU url.toList = some g →
      extract_doc_id url = Except.ok g) ∧
    (∀ url v, searchDocD url.toList = none → searchDocU url.toList = none →
      queryIdParam url = some v → extract_doc_id url = Except.ok v) ∧
    (∀ url, (∃ e, extract_doc_id url = Except.error e) ↔
      ¬ docDPattern url ∧ ¬ docUPattern url ∧
        ∀ p ∈ parseQsl (urlQuery url), p.1 ≠ "id") := by
  refine ⟨by rfl, by rfl, ?_, ?_, ?_, ?_⟩
  · intro url g h
    unfold extract_doc_id
    rw [h]
  · intro url g h1 h2
    unfold extract_doc_id
    rw [h1, h2]
  · intro url v h1 h2 h3
    unfold extract_doc_id
    rw [h1, h2, h3]
  · intro url
    have hd : searchDocD url.toList = none ↔ ¬ docDPattern url := by
      rw [← Option.not_isSome_iff_eq_none, searchDocD_isSome_iff]
      exact Iff.rfl
    have hu : searchDocU url.toList = none ↔ ¬ docUPattern url := by
      rw [← Option.not_isSome_iff_eq_none, searchDocU_isSome_iff]
      exact Iff.rfl
    rw [extract_error_iff, hd, hu, queryIdParam_none_iff]

end AnnotationChallenge
